import Mathlib

/-!
# Control-plane exposure ensurer and provider bootstrap

A shallow embedding of

* `pkg/webhook/controlplaneexposure/ensurer.go` (the admission ensurer for the
  kube-apiserver deployment and the etcd resource), and
* `cmd/gardener-extension-provider-packet/app/app.go` (the `Run` body of
  `NewControllerManagerCommand`).

Go strings are Lean `String`s, slices are `List`s, a nilable pointer is an
`Option`, and a Go `error` is an `Option String` (`none` is `nil`, `some msg`
carries the text of `err.Error()`).  A method that mutates its `new` argument in
place returns the value `new` holds after the call next to its error.
-/

namespace ControlPlaneExposure

/-! ## Strings and library helpers used by the ensurer -/

/-- The Go `error` interface value: `none` is `nil`. -/
abbrev GoError := Option String

/-- Go `strings.HasPrefix(s, pfx)`: `s` begins with `pfx`.  The comparison is made on the
characters of the two strings, which for well-formed UTF-8 agrees with the byte-wise test. -/
def HasPrefix (s pfx : String) : Bool :=
  pfx.data.isPrefixOf s.data

/-- Modelled from the spec: the loop of `StringWithPrefixIndex` (Gardener extension library, not
part of this repository), a scan from the left; `i` is the index of the head of `items`. -/
def StringWithPrefixIndex.loop (pfx : String) : List String → Nat → Int
  | [], _ => -1
  | item :: rest, i => if HasPrefix item pfx then (i : Int) else StringWithPrefixIndex.loop pfx rest (i + 1)

/-- Modelled from the spec: `extensionswebhook.StringWithPrefixIndex` of the Gardener extension
library (the "prefix-match" of §4.3 step 4), whose source is not part of this repository: the
index of the first element of `items` that has the prefix, or `-1` when there is none. -/
def StringWithPrefixIndex (items : List String) (pfx : String) : Int :=
  StringWithPrefixIndex.loop pfx items 0

/-- Modelled from the spec: `extensionswebhook.EnsureStringWithPrefix` of the Gardener extension
library, whose source is not part of this repository.  §4.3 step 4: "if an argument with that
prefix exists, replace its value; otherwise append it".  The library body is
`item := prefix + value; if i := StringWithPrefixIndex(items, prefix); i < 0 { append(items, item) }
else if items[i] != item { append(append(items[:i], item), items[i+1:]...) }`. -/
def EnsureStringWithPrefix (items : List String) (pfx value : String) : List String :=
  let item := pfx ++ value
  let i := StringWithPrefixIndex items pfx
  if i < 0 then
    items ++ [item]
  else if items[i.toNat]? ≠ some item then
    (items.take i.toNat ++ [item]) ++ items.drop (i.toNat + 1)
  else
    items

/-! ## Kubernetes objects (the fields the ensurer reads or writes) -/

/-- A `corev1.Container`. -/
structure Container where
  Name : String
  Command : List String
  Args : List String
deriving DecidableEq, Repr

/-- A `corev1.PodSpec`. -/
structure PodSpec where
  Containers : List Container
deriving DecidableEq, Repr

/-- A `corev1.PodTemplateSpec`. -/
structure PodTemplateSpec where
  Spec : PodSpec
deriving DecidableEq, Repr

/-- An `appsv1.DeploymentSpec`. -/
structure DeploymentSpec where
  Template : PodTemplateSpec
deriving DecidableEq, Repr

/-- An `appsv1.Deployment`; `Labels` is the `map[string]string` of the object metadata, kept as
an association list that is read with `List.lookup`. -/
structure Deployment where
  Name : String
  Namespace : String
  Labels : List (String × String)
  Spec : DeploymentSpec
deriving DecidableEq, Repr

/-- A `corev1.LoadBalancerIngress`. -/
structure LoadBalancerIngress where
  IP : String
  Hostname : String
deriving DecidableEq, Repr

/-- A `corev1.LoadBalancerStatus`. -/
structure LoadBalancerStatus where
  Ingress : List LoadBalancerIngress
deriving DecidableEq, Repr

/-- A `corev1.ServiceStatus`. -/
structure ServiceStatus where
  LoadBalancer : LoadBalancerStatus
deriving DecidableEq, Repr

/-- A `corev1.Service`. -/
structure Service where
  Status : ServiceStatus
deriving DecidableEq, Repr

/-- Modelled from the spec: the constant `v1beta1constants.LabelAPIServerExposure` of the Gardener
library, the key of the "marker indicating externally-managed exposure" of §4.3 step 1. -/
def LabelAPIServerExposure : String := "core.gardener.cloud/apiserver-exposure"

/-- Modelled from the spec: the constant `v1beta1constants.LabelAPIServerExposureGardenerManaged`
of the Gardener library, the value of the marker of §4.3 step 1. -/
def LabelAPIServerExposureGardenerManaged : String := "gardener-managed"

/-- Modelled from the spec: the constant `v1beta1constants.DeploymentNameKubeAPIServer` of the
Gardener library, the name of the "well-known service in the same namespace" of §4.3 step 3. -/
def DeploymentNameKubeAPIServer : String := "kube-apiserver"

/-- Modelled from the spec: the constant `v1beta1constants.ETCDMain` of the Gardener library, the
"specific well-known name" of the main storage instance of §4.3. -/
def ETCDMain : String := "etcd-main"

/-- Modelled from the spec: `v1beta1helper.IsAPIServerExposureManaged` of the Gardener library,
whose source is not part of this repository (§4.3 step 1, "the deployment already carries a
marker indicating externally-managed exposure"): the object has the label
`LabelAPIServerExposure` with the value `LabelAPIServerExposureGardenerManaged`. -/
def IsAPIServerExposureManaged (obj : Deployment) : Bool :=
  match obj.Labels.lookup LabelAPIServerExposure with
  | some v => v == LabelAPIServerExposureGardenerManaged
  | none => false

/-- Modelled from the spec: the loop of `containerWithNameIndex` (Gardener extension library, not
part of this repository), a scan from the left; `i` is the index of the head of the list. -/
def containerWithNameIndex.loop (name : String) : List Container → Nat → Int
  | [], _ => -1
  | container :: rest, i =>
    if container.Name = name then (i : Int) else containerWithNameIndex.loop name rest (i + 1)

/-- Modelled from the spec: `containerWithNameIndex` of the Gardener extension library, whose
source is not part of this repository: the index of the first container with the given name, or
`-1` when there is none. -/
def containerWithNameIndex (containers : List Container) (name : String) : Int :=
  containerWithNameIndex.loop name containers 0

/-- Modelled from the spec: `extensionswebhook.ContainerWithName` of the Gardener extension
library, whose source is not part of this repository (§4.3 step 2, "locate the container named
`kube-apiserver` in the new spec's container list"): a pointer to the first container with the
given name, `nil` when there is none.  The pointer `&containers[i]` is the index `i`. -/
def ContainerWithName (containers : List Container) (name : String) : Option Nat :=
  let i := containerWithNameIndex containers name
  if i ≥ 0 then some i.toNat else none

/-! ## The ensurer -/

/-- The `client.Client` capability the ensurer uses: `Get` of a `Service` by namespace and name,
which either fails with an error text or yields the stored object. -/
structure Client where
  Get : String → String → Except String Service

/-- Modelled from the spec: `resource.Quantity` of the Kubernetes library, the "capacity
quantity" of §3: an unscaled amount with a decimal scale and a display format (`true` for the
binary-SI suffixes such as `Gi`). -/
structure Quantity where
  value : Int
  scale : Int
  binarySI : Bool
deriving DecidableEq, Repr

/-- Modelled from the spec: the value of `resource.MustParse("10Gi")`, the "fixed quantity (10 GiB
equivalent)" of §4.3. -/
def MustParse10Gi : Quantity := ⟨10 * 1024 ^ 3, 0, true⟩

/-- The `config.ETCDStorage` snapshot. -/
structure ETCDStorage where
  ClassName : Option String
  Capacity : Option Quantity
deriving DecidableEq, Repr

/-- The `ensurer` struct (the logger plays no part in the results). -/
structure ensurer where
  etcdStorage : Option ETCDStorage
  client : Client

/-- The method `getServiceFirstLoadBalancerIP`.  The read `serviceStatusIngress[length-1]` is an
indexed access; its out-of-range branch is never taken, since `length` is not zero there. -/
def ensurer.getServiceFirstLoadBalancerIP (e : ensurer) (ns : String) : Except String String :=
  match e.client.Get ns DeploymentNameKubeAPIServer with
  | .error err => .error ("getting kube-apiserver service: " ++ err)
  | .ok service =>
    let serviceStatusIngress := service.Status.LoadBalancer.Ingress
    let length := serviceStatusIngress.length
    if length = 0 then
      .error "`.status.loadBalancer.ingress[]` has no elements yet, i.e. external load balancer has not been created"
    else
      match serviceStatusIngress[length - 1]? with
      | none => .error "index out of range"
      | some last =>
        let ip := last.IP
        if ip = "" then
          .error "`.status.loadBalancer.ingress[-1]` has no IP address set yet"
        else
          .ok ip

/-- Writes `cmd` into the `Command` field of the container at index `i` of the deployment (the
assignment `c.Command = cmd` through the pointer `c = &new.Spec.Template.Spec.Containers[i]`). -/
def Deployment.setCommandAt (d : Deployment) (i : Nat) (cmd : List String) : Deployment :=
  let containers := List.modify (fun c => { c with Command := cmd }) i d.Spec.Template.Spec.Containers
  { d with Spec := { Template := { Spec := { Containers := containers } } } }

/-- The method `EnsureKubeAPIServerDeployment`: the returned pair is the error and the value of
`new` after the call.  Reading `c.Command` dereferences the pointer `c`; the branch for a
dangling index is never taken, since `ContainerWithName` returns an index of the list. -/
def ensurer.EnsureKubeAPIServerDeployment (e : ensurer) (new : Deployment)
    (_old : Option Deployment) : GoError × Deployment :=
  if IsAPIServerExposureManaged new then
    (none, new)
  else
    match ContainerWithName new.Spec.Template.Spec.Containers "kube-apiserver" with
    | none => (none, new)
    | some c =>
      match e.getServiceFirstLoadBalancerIP new.Namespace with
      | .error err => (some ("getting API Service first LoadBalancer IP: " ++ err), new)
      | .ok ip =>
        match new.Spec.Template.Spec.Containers[c]? with
        | none => (none, new)
        | some container =>
          (none, new.setCommandAt c (EnsureStringWithPrefix container.Command "--advertise-address=" ip))

/-- A `druidv1alpha1.EtcdSpec`. -/
structure EtcdSpec where
  StorageClass : Option String
  StorageCapacity : Option Quantity
  Replicas : Int
deriving DecidableEq, Repr

/-- A `druidv1alpha1.Etcd`. -/
structure Etcd where
  Name : String
  Namespace : String
  Spec : EtcdSpec
deriving DecidableEq, Repr

/-- The method `EnsureETCD`: the returned pair is the error and the value of `new` after the
call.  The two local variables `capacity` and `class` start at their defaults and are overwritten
inside the guard `new.Name == ETCDMain && e.etcdStorage != nil`. -/
def ensurer.EnsureETCD (e : ensurer) (new : Etcd) (_old : Option Etcd) : GoError × Etcd :=
  let capacity := MustParse10Gi
  let className := ""
  let (capacity, className) :=
    if new.Name = ETCDMain then
      match e.etcdStorage with
      | some etcdStorage =>
        ((match etcdStorage.Capacity with
          | some c => c
          | none => capacity),
         (match etcdStorage.ClassName with
          | some n => n
          | none => className))
      | none => (capacity, className)
    else (capacity, className)
  (none, { new with
    Spec := { new.Spec with StorageClass := some className, StorageCapacity := some capacity } })


/-! ## Names for the results, and sample objects -/

/-- The deployment `d` with its container list replaced. -/
def Deployment.withContainers (d : Deployment) (containers : List Container) : Deployment :=
  { d with Spec := { Template := { Spec := { Containers := containers } } } }

/-- The container `c` with its command replaced. -/
def Container.withCommand (c : Container) (cmd : List String) : Container :=
  { c with Command := cmd }

/-- The etcd `d` with the two storage fields of its spec replaced. -/
def Etcd.withStorage (d : Etcd) (className : String) (capacity : Quantity) : Etcd :=
  { d with Spec := { d.Spec with StorageClass := some className, StorageCapacity := some capacity } }

/-- Modelled from the spec: the value of `resource.MustParse("5Gi")`, the capacity of the example
of §8. -/
def MustParse5Gi : Quantity := ⟨5 * 1024 ^ 3, 0, true⟩

/-- A client that knows one service, `kube-apiserver` in namespace `shoot--foo--bar`. -/
def sampleClient (service : Service) : Client :=
  ⟨fun ns name =>
    if ns = "shoot--foo--bar" ∧ name = "kube-apiserver" then .ok service
    else .error "services \"kube-apiserver\" not found"⟩

/-- A service with two ingress entries, both with an IP. -/
def sampleService : Service := ⟨⟨⟨[⟨"10.0.0.1", ""⟩, ⟨"10.0.0.2", ""⟩]⟩⟩⟩

/-- A service whose last ingress entry has a hostname and no IP, after an entry with an IP. -/
def sampleServiceNoIP : Service := ⟨⟨⟨[⟨"10.0.0.1", ""⟩, ⟨"", "lb.example.com"⟩]⟩⟩⟩

/-- An ensurer over the sample client, with a storage snapshot of 5Gi and class `fast`. -/
def sampleEnsurer (service : Service) : ensurer :=
  ⟨some ⟨some "fast", some MustParse5Gi⟩, sampleClient service⟩

/-- A sidecar container. -/
def sampleSidecar : Container := ⟨"vpn-seed", ["/run.sh"], []⟩

/-- A kube-apiserver container with the given command. -/
def sampleAPIServer (cmd : List String) : Container := ⟨"kube-apiserver", cmd, []⟩

/-- A deployment in namespace `shoot--foo--bar` with the given labels and containers. -/
def sampleDeployment (labels : List (String × String)) (containers : List Container) :
    Deployment :=
  ⟨"kube-apiserver", "shoot--foo--bar", labels, ⟨⟨⟨containers⟩⟩⟩⟩

/-- An etcd of the given name whose spec holds a class and a capacity already. -/
def sampleEtcd (name : String) : Etcd :=
  ⟨name, "shoot--foo--bar", ⟨some "slow", some ⟨1, 0, true⟩, 3⟩⟩

end ControlPlaneExposure

namespace App

open ControlPlaneExposure (GoError ETCDStorage Quantity)

/-! ## The bootstrap command (`NewControllerManagerCommand`, the `Run` closure) -/

/-- An `extensionswebhook.Webhook` descriptor, known by its name. -/
structure Webhook where
  Name : String
deriving DecidableEq, Repr

/-- The `controllercmd.ControllerConfig` of one controller. -/
structure ControllerConfig where
  MaxConcurrentReconciles : Nat
deriving DecidableEq, Repr

/-- The health-check configuration of the config file. -/
structure HealthCheckConfig where
  SyncPeriodSeconds : Nat
deriving DecidableEq, Repr

/-- The values the option sets hold once `aggOption.Complete()` has succeeded (what the
`Completed()` accessors return). -/
structure Completed where
  DeployCRDs : Bool
  ETCDStorage : ETCDStorage
  HealthCheckConfig : HealthCheckConfig
  controlPlaneCtrl : ControllerConfig
  healthCheckCtrl : ControllerConfig
  infraCtrl : ControllerConfig
  workerCtrl : ControllerConfig
  IgnoreOperationAnnotation : Bool
deriving DecidableEq, Repr

/-- The package-level `DefaultAddOptions` variables the command writes: those of the
controlplaneexposure webhook, and of the healthcheck, controlplane, infrastructure and worker
controllers. -/
structure Registry where
  exposureETCDStorage : ETCDStorage
  healthCheckConfig : HealthCheckConfig
  healthCheckController : ControllerConfig
  controlPlaneController : ControllerConfig
  controlPlaneIgnoreOperationAnnotation : Bool
  controlPlaneShootWebhooks : List Webhook
  infraController : ControllerConfig
  infraIgnoreOperationAnnotation : Bool
  workerController : ControllerConfig
  workerIgnoreOperationAnnotation : Bool
deriving DecidableEq, Repr

/-- The statements of the `Run` closure, one constructor per call or assignment, in source
order. -/
inductive Step
  | Complete
  | ApplyClientConnectionConfigurationToRESTConfig
  | ApplyMachineResourcesForConfig
  | NewManager
  | AddToSchemeController
  | AddToSchemePacket
  | AddToSchemeDruid
  | AddToSchemeMachine
  | AddToGroupVersion
  | ApplyETCDStorage
  | ApplyHealthCheckConfig
  | ApplyControlPlaneController
  | ApplyHealthCheckController
  | ApplyInfraController
  | ApplyInfraIgnoreOperationAnnotation
  | ApplyControlPlaneIgnoreOperationAnnotation
  | ApplyWorkerIgnoreOperationAnnotation
  | ApplyWorkerController
  | AddWebhooksToManager
  | SetShootWebhooks
  | AddControllersToManager
  | Start
deriving DecidableEq, Repr

/-- Modelled from the spec: the `Apply…` methods of the completed option values (`pkg/cmd` of
this repository and the Gardener `controllercmd` package), whose sources are not at hand.  §2:
"per-subsystem Apply() into the default-options registry"; each copies the completed value into
the registry slot it is handed.  The slot is named by the statement of `Run` that passes it. -/
def Completed.Apply (c : Completed) : Step → Registry → Registry
  | .ApplyETCDStorage, r => { r with exposureETCDStorage := c.ETCDStorage }
  | .ApplyHealthCheckConfig, r => { r with healthCheckConfig := c.HealthCheckConfig }
  | .ApplyControlPlaneController, r => { r with controlPlaneController := c.controlPlaneCtrl }
  | .ApplyHealthCheckController, r => { r with healthCheckController := c.healthCheckCtrl }
  | .ApplyInfraController, r => { r with infraController := c.infraCtrl }
  | Step.ApplyInfraIgnoreOperationAnnotation, r =>
    { r with infraIgnoreOperationAnnotation := c.IgnoreOperationAnnotation }
  | Step.ApplyControlPlaneIgnoreOperationAnnotation, r =>
    { r with controlPlaneIgnoreOperationAnnotation := c.IgnoreOperationAnnotation }
  | Step.ApplyWorkerIgnoreOperationAnnotation, r =>
    { r with workerIgnoreOperationAnnotation := c.IgnoreOperationAnnotation }
  | .ApplyWorkerController, r => { r with workerController := c.workerCtrl }
  | _, r => r

/-- The answers of the external collaborators in one run: the error (or `nil`) of every fallible
call, the completed option values, and the shoot-webhook list of the webhook registration. -/
structure Env where
  Complete : GoError
  completed : Completed
  ApplyMachineResourcesForConfig : GoError
  NewManager : GoError
  AddToSchemeController : GoError
  AddToSchemePacket : GoError
  AddToSchemeDruid : GoError
  AddToSchemeMachine : GoError
  AddWebhooksToManager : Except String (List Webhook)
  AddControllersToManager : GoError
  Start : GoError

/-- The process while `Run` executes: the registries, the statements executed so far (each with
the value `packetcontrolplane.DefaultAddOptions.ShootWebhooks` had when it began), the registries
as `controllerSwitches.Completed().AddToManager(mgr)` found them if that call has been made (the
controllers read their `DefaultAddOptions` when they are added), and the `LogErrAndExit` call
that ended the process, if any, as the pair of the error and the log message. -/
structure World where
  registry : Registry
  trace : List (Step × List Webhook)
  registered : Option Registry
  exit : Option (String × String)
deriving DecidableEq, Repr

/-- Records that statement `s` begins. -/
def World.call (w : World) (s : Step) : World :=
  { w with trace := w.trace ++ [(s, w.registry.controlPlaneShootWebhooks)] }

/-- Modelled from the spec: `controllercmd.LogErrAndExit` of the Gardener library, whose source
is not part of this repository.  §4.2: "every fatal step logs the error and terminates the
process"; the process state records the error and the message it exited with. -/
def World.LogErrAndExit (w : World) (err msg : String) : World :=
  { w with exit := some (err, msg) }

/-- A fallible call `if err := f(); err != nil { LogErrAndExit(err, msg) }`: the process goes
on (`ok`) or has exited (`error`). -/
def World.attempt (w : World) (s : Step) (r : GoError) (msg : String) : Except World World :=
  let w := w.call s
  match r with
  | some err => .error (w.LogErrAndExit err msg)
  | none => .ok w

/-- An infallible statement that updates the registries. -/
def World.assign (w : World) (s : Step) (f : Registry → Registry) : World :=
  let w := w.call s
  { w with registry := f w.registry }

/-- The fallible call `controllerSwitches.Completed().AddToManager(mgr)`: the controllers are
added with the registries as they are at this moment, then the error is handled as in
`attempt`. -/
def World.addControllers (w : World) (r : GoError) (msg : String) : Except World World :=
  World.attempt { w with registered := some w.registry } .AddControllersToManager r msg

/-- The body of the `Run` closure; `error` carries the process as it was when it exited. -/
def RunBody (env : Env) (w : World) : Except World World := do
  let w ← w.attempt .Complete env.Complete "Error completing options"
  let w := w.call .ApplyClientConnectionConfigurationToRESTConfig
  let w ←
    if env.completed.DeployCRDs then
      w.attempt .ApplyMachineResourcesForConfig env.ApplyMachineResourcesForConfig
        "Error ensuring the machine CRDs"
    else
      pure w
  let w ← w.attempt .NewManager env.NewManager "Could not instantiate manager"
  let w ← w.attempt .AddToSchemeController env.AddToSchemeController "Could not update manager scheme"
  let w ← w.attempt .AddToSchemePacket env.AddToSchemePacket "Could not update manager scheme"
  let w ← w.attempt .AddToSchemeDruid env.AddToSchemeDruid "Could not update manager scheme"
  let w ← w.attempt .AddToSchemeMachine env.AddToSchemeMachine "Could not update manager scheme"
  let w := w.call .AddToGroupVersion
  let w := w.assign .ApplyETCDStorage (env.completed.Apply .ApplyETCDStorage)
  let w := w.assign .ApplyHealthCheckConfig (env.completed.Apply .ApplyHealthCheckConfig)
  let w := w.assign .ApplyControlPlaneController (env.completed.Apply .ApplyControlPlaneController)
  let w := w.assign .ApplyHealthCheckController (env.completed.Apply .ApplyHealthCheckController)
  let w := w.assign .ApplyInfraController (env.completed.Apply .ApplyInfraController)
  let w := w.assign Step.ApplyInfraIgnoreOperationAnnotation
    (env.completed.Apply Step.ApplyInfraIgnoreOperationAnnotation)
  let w := w.assign Step.ApplyControlPlaneIgnoreOperationAnnotation
    (env.completed.Apply Step.ApplyControlPlaneIgnoreOperationAnnotation)
  let w := w.assign Step.ApplyWorkerIgnoreOperationAnnotation
    (env.completed.Apply Step.ApplyWorkerIgnoreOperationAnnotation)
  let w := w.assign .ApplyWorkerController (env.completed.Apply .ApplyWorkerController)
  let w := w.call .AddWebhooksToManager
  let shootWebhooks ←
    match env.AddWebhooksToManager with
    | .error err => throw (w.LogErrAndExit err "Could not add webhooks to manager")
    | .ok shootWebhooks => pure shootWebhooks
  let w := w.assign .SetShootWebhooks (fun r => { r with controlPlaneShootWebhooks := shootWebhooks })
  let w ← w.addControllers env.AddControllersToManager "Could not add controllers to manager"
  let w ← w.attempt .Start env.Start "Error running manager"
  return w

/-- The `Run` closure started in process state `w`: the state in which it returns or exits. -/
def Run (env : Env) (w : World) : World :=
  match RunBody env w with
  | .ok w => w
  | .error w => w

/-- The statements of `Run` that precede controller registration, in source order; the CRD
step is there when `deployCRDs` is set. -/
def orderBeforeControllers (deployCRDs : Bool) : List Step :=
  [.Complete, .ApplyClientConnectionConfigurationToRESTConfig] ++
  (if deployCRDs then [.ApplyMachineResourcesForConfig] else []) ++
  [.NewManager, .AddToSchemeController, .AddToSchemePacket, .AddToSchemeDruid,
   .AddToSchemeMachine, .AddToGroupVersion, .ApplyETCDStorage, .ApplyHealthCheckConfig,
   .ApplyControlPlaneController, .ApplyHealthCheckController, .ApplyInfraController,
   Step.ApplyInfraIgnoreOperationAnnotation, Step.ApplyControlPlaneIgnoreOperationAnnotation,
   Step.ApplyWorkerIgnoreOperationAnnotation, .ApplyWorkerController, .AddWebhooksToManager,
   .SetShootWebhooks]

/-- The statements of `Run` in source order. -/
def order (deployCRDs : Bool) : List Step :=
  orderBeforeControllers deployCRDs ++ [.AddControllersToManager, .Start]

/-- The error, if any, with which statement `s` fails in `env`; assignments and calls without
an error result never fail. -/
def Env.outcome (env : Env) : Step → GoError
  | .Complete => env.Complete
  | .ApplyMachineResourcesForConfig => env.ApplyMachineResourcesForConfig
  | .NewManager => env.NewManager
  | .AddToSchemeController => env.AddToSchemeController
  | .AddToSchemePacket => env.AddToSchemePacket
  | .AddToSchemeDruid => env.AddToSchemeDruid
  | .AddToSchemeMachine => env.AddToSchemeMachine
  | .AddWebhooksToManager =>
    match env.AddWebhooksToManager with
    | .error err => some err
    | .ok _ => none
  | .AddControllersToManager => env.AddControllersToManager
  | .Start => env.Start
  | _ => none

/-- A process that has executed nothing yet. -/
def World.fresh (r : Registry) : World := ⟨r, [], none, none⟩


/-- Completed option values as the command's defaults give them. -/
def sampleCompleted : Completed :=
  ⟨true, ⟨some "fast", none⟩, ⟨30⟩, ⟨5⟩, ⟨1⟩, ⟨5⟩, ⟨5⟩, false⟩

/-- A run in which every collaborator succeeds and one shoot webhook is registered. -/
def sampleEnv : Env :=
  ⟨none, sampleCompleted, none, none, none, none, none, none, .ok [⟨"controlplane"⟩], none, none⟩

/-- The zero-valued registries of a process that has just started. -/
def sampleRegistry : Registry :=
  ⟨⟨none, none⟩, ⟨0⟩, ⟨0⟩, ⟨0⟩, false, [], ⟨0⟩, false, ⟨0⟩, false⟩

/-- The shape of a finished run `w` of `Run` in `env`: the executed statements are an initial
segment of the source order, all but the last succeeded, the process exited exactly when the
last one failed (and otherwise ran up to `Start`), once controller registration has begun the
shoot webhooks are the output of the webhook registration and stay so, and the registries the
controllers found hold the completed option values in all nine propagated slots, the registered
shoot webhooks in the tenth, and are not written afterwards. -/
def Linear (env : Env) (w : World) : Prop :=
    (List.map Prod.fst w.trace) <+: order env.completed.DeployCRDs ∧
    (∀ x ∈ w.trace.dropLast, env.outcome x.1 = none) ∧
    w.trace ≠ [] ∧
    (∀ s reg, w.trace.getLast? = some (s, reg) →
      ((∃ err msg, env.outcome s = some err ∧ w.exit = some (err, msg)) ∨
       (env.outcome s = none ∧ s = .Start ∧ w.exit = none))) ∧
    (w.exit = none → List.map Prod.fst w.trace = order env.completed.DeployCRDs) ∧
    (∀ reg, (Step.AddControllersToManager, reg) ∈ w.trace →
      env.AddWebhooksToManager = .ok reg ∧
      w.registry.controlPlaneShootWebhooks = reg ∧
      (∀ x ∈ w.trace, x.1 = .AddControllersToManager ∨ x.1 = .Start →
        x.2 = reg) ∧
      (List.map Prod.fst w.trace
          = orderBeforeControllers env.completed.DeployCRDs ++ [.AddControllersToManager] ∨
       List.map Prod.fst w.trace = order env.completed.DeployCRDs)) ∧
    (w.registered ≠ none ↔ Step.AddControllersToManager ∈ List.map Prod.fst w.trace) ∧
    (∀ found, w.registered = some found →
      found.exposureETCDStorage = env.completed.ETCDStorage ∧
      found.healthCheckConfig = env.completed.HealthCheckConfig ∧
      found.controlPlaneController = env.completed.controlPlaneCtrl ∧
      found.healthCheckController = env.completed.healthCheckCtrl ∧
      found.infraController = env.completed.infraCtrl ∧
      found.infraIgnoreOperationAnnotation = env.completed.IgnoreOperationAnnotation ∧
      found.controlPlaneIgnoreOperationAnnotation = env.completed.IgnoreOperationAnnotation ∧
      found.workerIgnoreOperationAnnotation = env.completed.IgnoreOperationAnnotation ∧
      found.workerController = env.completed.workerCtrl ∧
      env.AddWebhooksToManager = .ok found.controlPlaneShootWebhooks ∧
      w.registry = found)

end App

namespace ControlPlaneExposure


/-! ## Lemmas on the helpers -/

theorem HasPrefix_append (pfx value : String) : HasPrefix (pfx ++ value) pfx = true := by
  unfold HasPrefix
  rw [String.data_append, List.isPrefixOf_iff_prefix]
  exact List.prefix_append _ _

theorem StringWithPrefixIndex_loop_skip (pfx : String) (l₁ l₂ : List String) (k : Nat)
    (h : ∀ x ∈ l₁, HasPrefix x pfx = false) :
    StringWithPrefixIndex.loop pfx (l₁ ++ l₂) k = StringWithPrefixIndex.loop pfx l₂ (k + l₁.length) := by
  induction l₁ generalizing k with
  | nil => simp
  | cons a l ih =>
    have ha : HasPrefix a pfx = false := h a (List.mem_cons_self _ _)
    have hl : ∀ x ∈ l, HasPrefix x pfx = false := fun x hx => h x (List.mem_cons_of_mem _ hx)
    have e : k + (l.length + 1) = k + 1 + l.length := by omega
    rw [List.cons_append, StringWithPrefixIndex.loop, List.length_cons, e, ← ih (k + 1) hl]
    simp [ha]

theorem StringWithPrefixIndex_none (pfx : String) (items : List String)
    (h : ∀ x ∈ items, HasPrefix x pfx = false) : StringWithPrefixIndex items pfx = -1 := by
  have := StringWithPrefixIndex_loop_skip pfx items [] 0 h
  simpa [StringWithPrefixIndex, StringWithPrefixIndex.loop] using this

theorem StringWithPrefixIndex_first (pfx : String) (l₁ l₂ : List String) (a : String)
    (h : ∀ x ∈ l₁, HasPrefix x pfx = false) (ha : HasPrefix a pfx = true) :
    StringWithPrefixIndex (l₁ ++ a :: l₂) pfx = (l₁.length : Int) := by
  have := StringWithPrefixIndex_loop_skip pfx l₁ (a :: l₂) 0 h
  simpa [StringWithPrefixIndex, StringWithPrefixIndex.loop, ha] using this

/-- Every list either has no element with the prefix or splits at its first such element. -/
theorem split_at_first_match (pfx : String) (items : List String) :
    (∀ x ∈ items, HasPrefix x pfx = false) ∨
    ∃ l₁ a l₂, items = l₁ ++ a :: l₂ ∧ (∀ x ∈ l₁, HasPrefix x pfx = false) ∧ HasPrefix a pfx = true := by
  induction items with
  | nil => left; simp
  | cons b l ih =>
    by_cases hb : HasPrefix b pfx = true
    · right; exact ⟨[], b, l, rfl, by simp, hb⟩
    · have hb' : HasPrefix b pfx = false := by simpa using hb
      rcases ih with h | ⟨l₁, a, l₂, rfl, h₁, ha⟩
      · left
        intro x hx
        rcases List.mem_cons.1 hx with rfl | hx
        · exact hb'
        · exact h x hx
      · right
        refine ⟨b :: l₁, a, l₂, rfl, ?_, ha⟩
        intro x hx
        rcases List.mem_cons.1 hx with rfl | hx
        · exact hb'
        · exact h₁ x hx

theorem EnsureStringWithPrefix_append (items : List String) (pfx value : String)
    (h : ∀ x ∈ items, HasPrefix x pfx = false) :
    EnsureStringWithPrefix items pfx value = items ++ [pfx ++ value] := by
  simp [EnsureStringWithPrefix, StringWithPrefixIndex_none pfx items h]

theorem EnsureStringWithPrefix_replace (l₁ l₂ : List String) (a pfx value : String)
    (h : ∀ x ∈ l₁, HasPrefix x pfx = false) (ha : HasPrefix a pfx = true) :
    EnsureStringWithPrefix (l₁ ++ a :: l₂) pfx value = l₁ ++ (pfx ++ value) :: l₂ := by
  unfold EnsureStringWithPrefix
  simp only [StringWithPrefixIndex_first pfx l₁ l₂ a h ha]
  have h0 : ¬ ((l₁.length : Int) < 0) := by omega
  simp only [h0, if_false, Int.toNat_ofNat]
  have hget : (l₁ ++ a :: l₂)[l₁.length]? = some a := by
    rw [List.getElem?_append_right (Nat.le_refl _)]
    simp
  rw [hget]
  by_cases heq : a = pfx ++ value
  · subst heq
    simp
  · simp [heq]

theorem EnsureStringWithPrefix_idem (items : List String) (pfx value : String) :
    EnsureStringWithPrefix (EnsureStringWithPrefix items pfx value) pfx value
      = EnsureStringWithPrefix items pfx value := by
  rcases split_at_first_match pfx items with h | ⟨l₁, a, l₂, rfl, h₁, ha⟩
  · rw [EnsureStringWithPrefix_append items pfx value h]
    exact EnsureStringWithPrefix_replace items [] _ pfx value h (HasPrefix_append pfx value)
  · rw [EnsureStringWithPrefix_replace l₁ l₂ a pfx value h₁ ha]
    exact EnsureStringWithPrefix_replace l₁ l₂ _ pfx value h₁ (HasPrefix_append pfx value)

theorem containerWithNameIndex_loop_skip (name : String) (pre rest : List Container) (k : Nat)
    (h : ∀ x ∈ pre, x.Name ≠ name) :
    containerWithNameIndex.loop name (pre ++ rest) k
      = containerWithNameIndex.loop name rest (k + pre.length) := by
  induction pre generalizing k with
  | nil => simp
  | cons a l ih =>
    have ha : a.Name ≠ name := h a (List.mem_cons_self _ _)
    have hl : ∀ x ∈ l, x.Name ≠ name := fun x hx => h x (List.mem_cons_of_mem _ hx)
    have e : k + (l.length + 1) = k + 1 + l.length := by omega
    rw [List.cons_append, containerWithNameIndex.loop, List.length_cons, e, ← ih (k + 1) hl]
    simp [ha]

theorem ContainerWithName_none (name : String) (containers : List Container)
    (h : ∀ x ∈ containers, x.Name ≠ name) : ContainerWithName containers name = none := by
  have := containerWithNameIndex_loop_skip name containers [] 0 h
  simp only [List.append_nil, containerWithNameIndex.loop] at this
  simp [ContainerWithName, containerWithNameIndex, this]

theorem ContainerWithName_first (name : String) (pre post : List Container) (c : Container)
    (h : ∀ x ∈ pre, x.Name ≠ name) (hc : c.Name = name) :
    ContainerWithName (pre ++ c :: post) name = some pre.length := by
  have := containerWithNameIndex_loop_skip name pre (c :: post) 0 h
  simp only [containerWithNameIndex.loop, hc, if_true, Nat.zero_add] at this
  simp [ContainerWithName, containerWithNameIndex, this]

/-- Every container list either has no container of the given name or splits at the first. -/
theorem container_split (name : String) (containers : List Container) :
    (∀ x ∈ containers, x.Name ≠ name) ∨
    ∃ pre c post, containers = pre ++ c :: post ∧ (∀ x ∈ pre, x.Name ≠ name) ∧ c.Name = name := by
  induction containers with
  | nil => left; simp
  | cons b l ih =>
    by_cases hb : b.Name = name
    · right; exact ⟨[], b, l, rfl, by simp, hb⟩
    · rcases ih with h | ⟨pre, c, post, rfl, h₁, hc⟩
      · left
        intro x hx
        rcases List.mem_cons.1 hx with rfl | hx
        · exact hb
        · exact h x hx
      · right
        refine ⟨b :: pre, c, post, rfl, ?_, hc⟩
        intro x hx
        rcases List.mem_cons.1 hx with rfl | hx
        · exact hb
        · exact h₁ x hx

theorem modify_at_split (f : Container → Container) (pre post : List Container) (c : Container) :
    List.modify f pre.length (pre ++ c :: post) = pre ++ f c :: post := by
  induction pre with
  | nil => simp
  | cons a l ih => simp [ih]

/-- The call skips the deployment: marker present, or no `kube-apiserver` container. -/
theorem ensure_skipped (e : ensurer) (new : Deployment) (old : Option Deployment)
    (h : IsAPIServerExposureManaged new = true ∨
      ∀ x ∈ new.Spec.Template.Spec.Containers, x.Name ≠ "kube-apiserver") :
    e.EnsureKubeAPIServerDeployment new old = (none, new) := by
  unfold ensurer.EnsureKubeAPIServerDeployment
  rcases h with h | h
  · simp [h]
  · rw [ContainerWithName_none _ _ h]
    by_cases hm : IsAPIServerExposureManaged new = true <;> simp [hm]

/-- The call reaches the lookup and the lookup fails. -/
theorem ensure_lookup_failed (e : ensurer) (new : Deployment) (old : Option Deployment)
    (pre post : List Container) (c : Container) (err : String)
    (hm : IsAPIServerExposureManaged new = false)
    (hs : new.Spec.Template.Spec.Containers = pre ++ c :: post)
    (hpre : ∀ x ∈ pre, x.Name ≠ "kube-apiserver") (hc : c.Name = "kube-apiserver")
    (hip : e.getServiceFirstLoadBalancerIP new.Namespace = .error err) :
    e.EnsureKubeAPIServerDeployment new old
      = (some ("getting API Service first LoadBalancer IP: " ++ err), new) := by
  unfold ensurer.EnsureKubeAPIServerDeployment
  rw [hs, ContainerWithName_first _ pre post c hpre hc]
  simp [hm, hip]

/-- The call reaches the lookup and the lookup yields `ip`. -/
theorem ensure_lookup_ok (e : ensurer) (new : Deployment) (old : Option Deployment)
    (pre post : List Container) (c : Container) (ip : String)
    (hm : IsAPIServerExposureManaged new = false)
    (hs : new.Spec.Template.Spec.Containers = pre ++ c :: post)
    (hpre : ∀ x ∈ pre, x.Name ≠ "kube-apiserver") (hc : c.Name = "kube-apiserver")
    (hip : e.getServiceFirstLoadBalancerIP new.Namespace = .ok ip) :
    e.EnsureKubeAPIServerDeployment new old
      = (none, new.withContainers
          (pre ++ c.withCommand (EnsureStringWithPrefix c.Command "--advertise-address=" ip) :: post)) := by
  unfold ensurer.EnsureKubeAPIServerDeployment
  rw [hs, ContainerWithName_first _ pre post c hpre hc]
  have hget : (pre ++ c :: post)[pre.length]? = some c := by
    rw [List.getElem?_append_right (Nat.le_refl _)]
    simp
  simp only [hm, Bool.false_eq_true, if_false, hip, hget]
  simp only [Deployment.setCommandAt, hs, modify_at_split]
  rfl

/-- The lookup on a service whose ingress list ends with `last`. -/
theorem lookup_last (e : ensurer) (ns : String) (service : Service)
    (init : List LoadBalancerIngress) (last : LoadBalancerIngress)
    (hget : e.client.Get ns "kube-apiserver" = .ok service)
    (hing : service.Status.LoadBalancer.Ingress = init ++ [last]) :
    e.getServiceFirstLoadBalancerIP ns =
      if last.IP = "" then .error "`.status.loadBalancer.ingress[-1]` has no IP address set yet"
      else .ok last.IP := by
  unfold ensurer.getServiceFirstLoadBalancerIP
  have hget' : e.client.Get ns DeploymentNameKubeAPIServer = .ok service := hget
  have hl : (init ++ [last])[(init ++ [last]).length - 1]? = some last := by
    simp
  simp only [hget', hing, hl]
  simp

/-- The lookup on a service whose ingress list is empty. -/
theorem lookup_empty (e : ensurer) (ns : String) (service : Service)
    (hget : e.client.Get ns "kube-apiserver" = .ok service)
    (hing : service.Status.LoadBalancer.Ingress = []) :
    e.getServiceFirstLoadBalancerIP ns = .error
      "`.status.loadBalancer.ingress[]` has no elements yet, i.e. external load balancer has not been created" := by
  unfold ensurer.getServiceFirstLoadBalancerIP
  have hget' : e.client.Get ns DeploymentNameKubeAPIServer = .ok service := hget
  simp [hget', hing]

theorem mem_EnsureStringWithPrefix (items : List String) (pfx value : String) :
    (pfx ++ value) ∈ EnsureStringWithPrefix items pfx value := by
  rcases split_at_first_match pfx items with h | ⟨l₁, a, l₂, rfl, h₁, ha⟩
  · rw [EnsureStringWithPrefix_append items pfx value h]
    simp
  · rw [EnsureStringWithPrefix_replace l₁ l₂ a pfx value h₁ ha]
    simp

/-! ## The kube-apiserver deployment -/

/-- C1: when the kube-apiserver service has an ingress list with at least one entry (it ends
with `last`), any IP that `getServiceFirstLoadBalancerIP` resolves is the IP of the last entry,
it does resolve that IP whenever it is not empty, and `EnsureKubeAPIServerDeployment` on a
deployment that reaches the lookup then writes `--advertise-address=<last IP>` into the command
of the kube-apiserver container. -/
theorem advertise_address_is_last_ingress_ip (e : ensurer) (service : Service)
    (init : List LoadBalancerIngress) (last : LoadBalancerIngress)
    (new : Deployment) (old : Option Deployment) (pre post : List Container) (c : Container)
    (hget : e.client.Get new.Namespace "kube-apiserver" = .ok service)
    (hing : service.Status.LoadBalancer.Ingress = init ++ [last])
    (hm : IsAPIServerExposureManaged new = false)
    (hs : new.Spec.Template.Spec.Containers = pre ++ c :: post)
    (hpre : ∀ x ∈ pre, x.Name ≠ "kube-apiserver") (hc : c.Name = "kube-apiserver") :
    (∀ ip, e.getServiceFirstLoadBalancerIP new.Namespace = .ok ip → ip = last.IP) ∧
    (last.IP ≠ "" →
      e.getServiceFirstLoadBalancerIP new.Namespace = .ok last.IP ∧
      ∃ cmd, e.EnsureKubeAPIServerDeployment new old
          = (none, new.withContainers (pre ++ c.withCommand cmd :: post)) ∧
        cmd = EnsureStringWithPrefix c.Command "--advertise-address=" last.IP ∧
        ("--advertise-address=" ++ last.IP) ∈ cmd) := by
  have hl := lookup_last e new.Namespace service init last hget hing
  constructor
  · intro ip hip
    rw [hl] at hip
    by_cases h0 : last.IP = ""
    · simp [h0] at hip
    · simp only [h0, if_false, Except.ok.injEq] at hip
      exact hip.symm
  · intro h0
    simp only [h0, if_false] at hl
    exact ⟨hl, _, ensure_lookup_ok e new old pre post c last.IP hm hs hpre hc hl, rfl,
      mem_EnsureStringWithPrefix _ _ _⟩

/-- C2: for a deployment without the managed-exposure marker whose kube-apiserver container `c`
(the first container of that name) has no command element starting with `--advertise-address=`,
and a resolved IP `ip`, `EnsureKubeAPIServerDeployment` returns no error and the command of `c`
becomes the original list followed by the one element `--advertise-address=<ip>`; nothing else
in the deployment changes. -/
theorem advertise_address_appended (e : ensurer) (new : Deployment) (old : Option Deployment)
    (pre post : List Container) (c : Container) (ip : String)
    (hm : IsAPIServerExposureManaged new = false)
    (hs : new.Spec.Template.Spec.Containers = pre ++ c :: post)
    (hpre : ∀ x ∈ pre, x.Name ≠ "kube-apiserver") (hc : c.Name = "kube-apiserver")
    (hno : ∀ a ∈ c.Command, HasPrefix a "--advertise-address=" = false)
    (hip : e.getServiceFirstLoadBalancerIP new.Namespace = .ok ip) :
    e.EnsureKubeAPIServerDeployment new old
      = (none, new.withContainers
          (pre ++ c.withCommand (c.Command ++ ["--advertise-address=" ++ ip]) :: post)) := by
  rw [ensure_lookup_ok e new old pre post c ip hm hs hpre hc hip,
    EnsureStringWithPrefix_append _ _ _ hno]

/-- C3: for a deployment without the managed-exposure marker whose kube-apiserver container `c`
has a command element starting with `--advertise-address=`, and a resolved IP `ip`,
`EnsureKubeAPIServerDeployment` returns no error and replaces that element (the first one with
the prefix) by `--advertise-address=<ip>`: the new command has the same length, holds the new
element at the position of the old one, and agrees with the old command at every other
position. -/
theorem advertise_address_replaced (e : ensurer) (new : Deployment) (old : Option Deployment)
    (pre post : List Container) (c : Container) (ip : String)
    (hm : IsAPIServerExposureManaged new = false)
    (hs : new.Spec.Template.Spec.Containers = pre ++ c :: post)
    (hpre : ∀ x ∈ pre, x.Name ≠ "kube-apiserver") (hc : c.Name = "kube-apiserver")
    (hhas : ∃ a ∈ c.Command, HasPrefix a "--advertise-address=" = true)
    (hip : e.getServiceFirstLoadBalancerIP new.Namespace = .ok ip) :
    ∃ before arg after cmd,
      c.Command = before ++ arg :: after ∧
      (∀ a ∈ before, HasPrefix a "--advertise-address=" = false) ∧
      HasPrefix arg "--advertise-address=" = true ∧
      e.EnsureKubeAPIServerDeployment new old
        = (none, new.withContainers (pre ++ c.withCommand cmd :: post)) ∧
      cmd = before ++ ("--advertise-address=" ++ ip) :: after ∧
      cmd.length = c.Command.length ∧
      cmd[before.length]? = some ("--advertise-address=" ++ ip) ∧
      ∀ j, j ≠ before.length → cmd[j]? = c.Command[j]? := by
  rcases split_at_first_match "--advertise-address=" c.Command with h | ⟨before, arg, after, hsplit, hb, ha⟩
  · obtain ⟨a, hmem, hpa⟩ := hhas
    rw [h a hmem] at hpa
    cases hpa
  · refine ⟨before, arg, after, _, hsplit, hb, ha, ?_, rfl, ?_, ?_, ?_⟩
    · rw [ensure_lookup_ok e new old pre post c ip hm hs hpre hc hip, hsplit,
        EnsureStringWithPrefix_replace _ _ _ _ _ hb ha]
    · simp [hsplit]
    · rw [List.getElem?_append_right (Nat.le_refl _)]
      simp
    · intro j hj
      rw [hsplit]
      rcases Nat.lt_or_gt_of_ne hj with hlt | hgt
      · rw [List.getElem?_append_left hlt, List.getElem?_append_left hlt]
      · rw [List.getElem?_append_right (Nat.le_of_lt hgt),
          List.getElem?_append_right (Nat.le_of_lt hgt)]
        obtain ⟨k, hk⟩ : ∃ k, j - before.length = k + 1 := ⟨j - before.length - 1, by omega⟩
        rw [hk]
        simp

/-- C4: for a deployment that reaches the address lookup (no marker, a kube-apiserver container
present), when the service has an empty ingress list, or its last entry has an empty IP
(whatever the earlier entries and the hostname of the last one), `EnsureKubeAPIServerDeployment`
returns an error and the deployment is unchanged. -/
theorem lookup_failure_leaves_deployment (e : ensurer) (service : Service)
    (new : Deployment) (old : Option Deployment) (pre post : List Container) (c : Container)
    (hget : e.client.Get new.Namespace "kube-apiserver" = .ok service)
    (hing : service.Status.LoadBalancer.Ingress = [] ∨
      ∃ init last, service.Status.LoadBalancer.Ingress = init ++ [last] ∧ last.IP = "")
    (hm : IsAPIServerExposureManaged new = false)
    (hs : new.Spec.Template.Spec.Containers = pre ++ c :: post)
    (hpre : ∀ x ∈ pre, x.Name ≠ "kube-apiserver") (hc : c.Name = "kube-apiserver") :
    (e.EnsureKubeAPIServerDeployment new old).1 ≠ none ∧
    (e.EnsureKubeAPIServerDeployment new old).2 = new := by
  have herr : ∃ err, e.getServiceFirstLoadBalancerIP new.Namespace = .error err := by
    rcases hing with h | ⟨init, last, h, h0⟩
    · exact ⟨_, lookup_empty e new.Namespace service hget h⟩
    · have hl := lookup_last e new.Namespace service init last hget h
      simp only [h0, if_true] at hl
      exact ⟨_, hl⟩
  obtain ⟨err, herr⟩ := herr
  rw [ensure_lookup_failed e new old pre post c err hm hs hpre hc herr]
  simp

/-- C7: with the same resolved IP on both calls, applying `EnsureKubeAPIServerDeployment` to
its own result returns no error and leaves that result unchanged, for every deployment
(whatever its command list holds). -/
theorem EnsureKubeAPIServerDeployment_idempotent (e e' : ensurer) (new : Deployment)
    (old old' : Option Deployment) (ip : String)
    (hip : e.getServiceFirstLoadBalancerIP new.Namespace = .ok ip)
    (hip' : e'.getServiceFirstLoadBalancerIP new.Namespace = .ok ip) :
    (e.EnsureKubeAPIServerDeployment new old).1 = none ∧
    e'.EnsureKubeAPIServerDeployment (e.EnsureKubeAPIServerDeployment new old).2 old'
      = (none, (e.EnsureKubeAPIServerDeployment new old).2) := by
  by_cases hm : IsAPIServerExposureManaged new = true
  · rw [ensure_skipped e new old (Or.inl hm)]
    exact ⟨rfl, ensure_skipped e' new old' (Or.inl hm)⟩
  · have hm' : IsAPIServerExposureManaged new = false := by simpa using hm
    rcases container_split "kube-apiserver" new.Spec.Template.Spec.Containers with
      h | ⟨pre, c, post, hs, hpre, hc⟩
    · rw [ensure_skipped e new old (Or.inr h)]
      exact ⟨rfl, ensure_skipped e' new old' (Or.inr h)⟩
    · rw [ensure_lookup_ok e new old pre post c ip hm' hs hpre hc hip]
      refine ⟨rfl, ?_⟩
      have := ensure_lookup_ok e'
        (new.withContainers
          (pre ++ c.withCommand (EnsureStringWithPrefix c.Command "--advertise-address=" ip) :: post))
        old' pre post
        (c.withCommand (EnsureStringWithPrefix c.Command "--advertise-address=" ip)) ip
        hm' rfl hpre hc hip'
      rw [this]
      simp [Deployment.withContainers, Container.withCommand, EnsureStringWithPrefix_idem]

/-- C9: for a deployment that carries the managed-exposure marker, or that has no container
named `kube-apiserver`, `EnsureKubeAPIServerDeployment` returns no error and leaves the
deployment unchanged whatever the ensurer's client answers (service missing, empty ingress list,
last entry without an IP, or anything else): the service plays no part in the outcome. -/
theorem skipped_deployment_unchanged (new : Deployment)
    (h : IsAPIServerExposureManaged new = true ∨
      ∀ x ∈ new.Spec.Template.Spec.Containers, x.Name ≠ "kube-apiserver") :
    ∀ (e : ensurer) (old : Option Deployment),
      e.EnsureKubeAPIServerDeployment new old = (none, new) := by
  intro e old
  exact ensure_skipped e new old h

/-! ## The etcd resource -/

/-- C5: for an Etcd named `etcd-main` (the well-known main name): with an injected snapshot
`s`, `EnsureETCD` returns no error and sets the capacity to the snapshot's capacity when it has
one and to 10Gi otherwise, and the class to the snapshot's class name when it has one and to the
empty string otherwise; with no snapshot (nil) it sets capacity 10Gi and class "". -/
theorem EnsureETCD_main (e : ensurer) (new : Etcd) (old : Option Etcd)
    (hname : new.Name = ETCDMain) :
    (∀ s, e.etcdStorage = some s →
      e.EnsureETCD new old
        = (none, new.withStorage (s.ClassName.getD "") (s.Capacity.getD MustParse10Gi))) ∧
    (e.etcdStorage = none →
      e.EnsureETCD new old = (none, new.withStorage "" MustParse10Gi)) := by
  constructor
  · intro s hs
    rcases s with ⟨cn, cap⟩
    cases cn <;> cases cap <;>
      simp [ensurer.EnsureETCD, hname, hs, Etcd.withStorage]
  · intro hs
    simp [ensurer.EnsureETCD, hname, hs, Etcd.withStorage]

/-- C6: for an Etcd whose name is not `etcd-main`, `EnsureETCD` ignores the snapshot (nil or
not, whatever it holds): it returns no error and the spec gets capacity 10Gi and class "",
whatever it held before. -/
theorem EnsureETCD_not_main (e : ensurer) (new : Etcd) (old : Option Etcd)
    (hname : new.Name ≠ ETCDMain) :
    e.EnsureETCD new old = (none, new.withStorage "" MustParse10Gi) ∧
    (e.EnsureETCD new old).2.Spec.StorageCapacity = some MustParse10Gi ∧
    (e.EnsureETCD new old).2.Spec.StorageClass = some "" := by
  have h : e.EnsureETCD new old = (none, new.withStorage "" MustParse10Gi) := by
    simp [ensurer.EnsureETCD, hname, Etcd.withStorage]
  rw [h]
  exact ⟨rfl, rfl, rfl⟩

/-- C8: `EnsureETCD` never returns an error, its result does not depend on the `old` argument
(nil included), and applying it again to its own result (with any `old`) yields the same
object. -/
theorem EnsureETCD_idempotent (e : ensurer) (new : Etcd) (old old' : Option Etcd) :
    (e.EnsureETCD new old).1 = none ∧
    e.EnsureETCD new old = e.EnsureETCD new old' ∧
    e.EnsureETCD (e.EnsureETCD new old).2 old' = e.EnsureETCD new old := by
  refine ⟨rfl, rfl, ?_⟩
  by_cases hname : new.Name = ETCDMain
  · cases hs : e.etcdStorage with
    | none => simp [ensurer.EnsureETCD, hname, hs]
    | some s =>
      rcases s with ⟨cn, cap⟩
      cases cn <;> cases cap <;> simp [ensurer.EnsureETCD, hname, hs]
  · simp [ensurer.EnsureETCD, hname]

end ControlPlaneExposure

namespace App

/-! ## The bootstrap sequence -/

set_option maxHeartbeats 4000000 in
/-- Every run of `Run` from a fresh process has the shape `Linear`: by cases on the answers of
the collaborators, in the order in which `Run` asks for them; a failing answer ends the run and
the remaining answers are never looked at. -/
theorem Run_linear (env : Env) (r : Registry) : Linear env (Run env (World.fresh r)) := by
  rcases env with ⟨C, ⟨d, c2, c3, c4, c5, c6, c7, c8⟩, AMR, NM, S1, S2, S3, S4, AW, AC, St⟩
  rcases C with _ | err <;>
    [skip;
     (simp only [Run, RunBody, World.fresh, World.attempt, World.call, World.assign,
        World.LogErrAndExit, World.addControllers, Completed.Apply, bind, Except.bind, pure, Except.pure, throw,
        throwThe, MonadExceptOf.throw, List.nil_append, List.cons_append, Bool.false_eq_true,
        if_false, if_true]
      exact ⟨by first | exact List.isPrefixOf_iff_prefix.1 rfl | simp [order, orderBeforeControllers],
        by simp [Env.outcome], by simp, by simp [Env.outcome],
        by simp [order, orderBeforeControllers], by simp [order, orderBeforeControllers],
        by simp [order, orderBeforeControllers], by simp⟩)]
  cases d
  on_goal 2 =>
    rcases AMR with _ | err <;>
      [skip;
       (simp only [Run, RunBody, World.fresh, World.attempt, World.call, World.assign,
          World.LogErrAndExit, World.addControllers, Completed.Apply, bind, Except.bind, pure, Except.pure, throw,
          throwThe, MonadExceptOf.throw, List.nil_append, List.cons_append, Bool.false_eq_true,
          if_false, if_true]
        exact ⟨by first | exact List.isPrefixOf_iff_prefix.1 rfl | simp [order, orderBeforeControllers],
          by simp [Env.outcome], by simp, by simp [Env.outcome],
          by simp [order, orderBeforeControllers], by simp [order, orderBeforeControllers],
          by simp [order, orderBeforeControllers], by simp⟩)]
  all_goals
    simp only [Run, RunBody, World.fresh, World.attempt, World.call, World.assign,
      World.LogErrAndExit, World.addControllers, Completed.Apply, bind, Except.bind, pure, Except.pure, throw,
      throwThe, MonadExceptOf.throw, List.nil_append, List.cons_append, Bool.false_eq_true,
      if_false, if_true]
  all_goals
    rcases NM with _ | err <;>
      [skip;
       (simp only [Run, RunBody, World.fresh, World.attempt, World.call, World.assign,
          World.LogErrAndExit, World.addControllers, Completed.Apply, bind, Except.bind, pure, Except.pure, throw,
          throwThe, MonadExceptOf.throw, List.nil_append, List.cons_append, Bool.false_eq_true,
          if_false, if_true]
        exact ⟨by first | exact List.isPrefixOf_iff_prefix.1 rfl | simp [order, orderBeforeControllers],
          by simp [Env.outcome], by simp, by simp [Env.outcome],
          by simp [order, orderBeforeControllers], by simp [order, orderBeforeControllers],
          by simp [order, orderBeforeControllers], by simp⟩)]
  all_goals
    simp only [Run, RunBody, World.fresh, World.attempt, World.call, World.assign,
      World.LogErrAndExit, World.addControllers, Completed.Apply, bind, Except.bind, pure, Except.pure, throw,
      throwThe, MonadExceptOf.throw, List.nil_append, List.cons_append, Bool.false_eq_true,
      if_false, if_true]
  all_goals
    rcases S1 with _ | err <;>
      [skip;
       (simp only [Run, RunBody, World.fresh, World.attempt, World.call, World.assign,
          World.LogErrAndExit, World.addControllers, Completed.Apply, bind, Except.bind, pure, Except.pure, throw,
          throwThe, MonadExceptOf.throw, List.nil_append, List.cons_append, Bool.false_eq_true,
          if_false, if_true]
        exact ⟨by first | exact List.isPrefixOf_iff_prefix.1 rfl | simp [order, orderBeforeControllers],
          by simp [Env.outcome], by simp, by simp [Env.outcome],
          by simp [order, orderBeforeControllers], by simp [order, orderBeforeControllers],
          by simp [order, orderBeforeControllers], by simp⟩)]
  all_goals
    simp only [Run, RunBody, World.fresh, World.attempt, World.call, World.assign,
      World.LogErrAndExit, World.addControllers, Completed.Apply, bind, Except.bind, pure, Except.pure, throw,
      throwThe, MonadExceptOf.throw, List.nil_append, List.cons_append, Bool.false_eq_true,
      if_false, if_true]
  all_goals
    rcases S2 with _ | err <;>
      [skip;
       (simp only [Run, RunBody, World.fresh, World.attempt, World.call, World.assign,
          World.LogErrAndExit, World.addControllers, Completed.Apply, bind, Except.bind, pure, Except.pure, throw,
          throwThe, MonadExceptOf.throw, List.nil_append, List.cons_append, Bool.false_eq_true,
          if_false, if_true]
        exact ⟨by first | exact List.isPrefixOf_iff_prefix.1 rfl | simp [order, orderBeforeControllers],
          by simp [Env.outcome], by simp, by simp [Env.outcome],
          by simp [order, orderBeforeControllers], by simp [order, orderBeforeControllers],
          by simp [order, orderBeforeControllers], by simp⟩)]
  all_goals
    simp only [Run, RunBody, World.fresh, World.attempt, World.call, World.assign,
      World.LogErrAndExit, World.addControllers, Completed.Apply, bind, Except.bind, pure, Except.pure, throw,
      throwThe, MonadExceptOf.throw, List.nil_append, List.cons_append, Bool.false_eq_true,
      if_false, if_true]
  all_goals
    rcases S3 with _ | err <;>
      [skip;
       (simp only [Run, RunBody, World.fresh, World.attempt, World.call, World.assign,
          World.LogErrAndExit, World.addControllers, Completed.Apply, bind, Except.bind, pure, Except.pure, throw,
          throwThe, MonadExceptOf.throw, List.nil_append, List.cons_append, Bool.false_eq_true,
          if_false, if_true]
        exact ⟨by first | exact List.isPrefixOf_iff_prefix.1 rfl | simp [order, orderBeforeControllers],
          by simp [Env.outcome], by simp, by simp [Env.outcome],
          by simp [order, orderBeforeControllers], by simp [order, orderBeforeControllers],
          by simp [order, orderBeforeControllers], by simp⟩)]
  all_goals
    simp only [Run, RunBody, World.fresh, World.attempt, World.call, World.assign,
      World.LogErrAndExit, World.addControllers, Completed.Apply, bind, Except.bind, pure, Except.pure, throw,
      throwThe, MonadExceptOf.throw, List.nil_append, List.cons_append, Bool.false_eq_true,
      if_false, if_true]
  all_goals
    rcases S4 with _ | err <;>
      [skip;
       (simp only [Run, RunBody, World.fresh, World.attempt, World.call, World.assign,
          World.LogErrAndExit, World.addControllers, Completed.Apply, bind, Except.bind, pure, Except.pure, throw,
          throwThe, MonadExceptOf.throw, List.nil_append, List.cons_append, Bool.false_eq_true,
          if_false, if_true]
        exact ⟨by first | exact List.isPrefixOf_iff_prefix.1 rfl | simp [order, orderBeforeControllers],
          by simp [Env.outcome], by simp, by simp [Env.outcome],
          by simp [order, orderBeforeControllers], by simp [order, orderBeforeControllers],
          by simp [order, orderBeforeControllers], by simp⟩)]
  all_goals
    simp only [Run, RunBody, World.fresh, World.attempt, World.call, World.assign,
      World.LogErrAndExit, World.addControllers, Completed.Apply, bind, Except.bind, pure, Except.pure, throw,
      throwThe, MonadExceptOf.throw, List.nil_append, List.cons_append, Bool.false_eq_true,
      if_false, if_true]
  all_goals
    rcases AW with err | ws <;>
      [(simp only [Run, RunBody, World.fresh, World.attempt, World.call, World.assign,
          World.LogErrAndExit, World.addControllers, Completed.Apply, bind, Except.bind, pure, Except.pure, throw,
          throwThe, MonadExceptOf.throw, List.nil_append, List.cons_append, Bool.false_eq_true,
          if_false, if_true]
        exact ⟨by first | exact List.isPrefixOf_iff_prefix.1 rfl | simp [order, orderBeforeControllers],
          by simp [Env.outcome], by simp, by simp [Env.outcome],
          by simp [order, orderBeforeControllers], by simp [order, orderBeforeControllers],
          by simp [order, orderBeforeControllers], by simp⟩);
       skip]
  all_goals
    simp only [Run, RunBody, World.fresh, World.attempt, World.call, World.assign,
      World.LogErrAndExit, World.addControllers, Completed.Apply, bind, Except.bind, pure, Except.pure, throw,
      throwThe, MonadExceptOf.throw, List.nil_append, List.cons_append, Bool.false_eq_true,
      if_false, if_true]
  all_goals
    rcases AC with _ | err <;>
      [skip;
       (simp only [Run, RunBody, World.fresh, World.attempt, World.call, World.assign,
          World.LogErrAndExit, World.addControllers, Completed.Apply, bind, Except.bind, pure, Except.pure, throw,
          throwThe, MonadExceptOf.throw, List.nil_append, List.cons_append, Bool.false_eq_true,
          if_false, if_true]
        exact ⟨by first | exact List.isPrefixOf_iff_prefix.1 rfl | simp [order, orderBeforeControllers],
          by simp [Env.outcome], by simp, by simp [Env.outcome],
          by simp [order, orderBeforeControllers], by simp [order, orderBeforeControllers],
          by simp [order, orderBeforeControllers], by simp⟩)]
  all_goals
    simp only [Run, RunBody, World.fresh, World.attempt, World.call, World.assign,
      World.LogErrAndExit, World.addControllers, Completed.Apply, bind, Except.bind, pure, Except.pure, throw,
      throwThe, MonadExceptOf.throw, List.nil_append, List.cons_append, Bool.false_eq_true,
      if_false, if_true]
  all_goals
    rcases St with _ | err <;>
      (simp only [Run, RunBody, World.fresh, World.attempt, World.call, World.assign,
         World.LogErrAndExit, World.addControllers, Completed.Apply, bind, Except.bind, pure, Except.pure, throw,
         throwThe, MonadExceptOf.throw, List.nil_append, List.cons_append, Bool.false_eq_true,
         if_false, if_true]
       exact ⟨by first | exact List.isPrefixOf_iff_prefix.1 rfl | simp [order, orderBeforeControllers],
         by simp [Env.outcome], by simp, by simp [Env.outcome],
         by simp [order, orderBeforeControllers], by simp [order, orderBeforeControllers],
         by simp [order, orderBeforeControllers], by simp⟩)

/-- A run in which nothing fails executes the whole sequence, and the controllers find the
registered shoot webhook. -/
theorem sample_run_complete :
    (Run sampleEnv (World.fresh sampleRegistry)).trace.map Prod.fst = order true ∧
    (Run sampleEnv (World.fresh sampleRegistry)).exit = none ∧
    (Step.AddControllersToManager, [⟨"controlplane"⟩])
      ∈ (Run sampleEnv (World.fresh sampleRegistry)).trace ∧
    (Run sampleEnv (World.fresh sampleRegistry)).registered
      = some ⟨⟨some "fast", none⟩, ⟨30⟩, ⟨1⟩, ⟨5⟩, false, [⟨"controlplane"⟩], ⟨5⟩, false, ⟨5⟩,
          false⟩ := by
  decide

/-- A run in which the webhook registration fails stops there: the shoot webhooks are never
stored and no controller is registered. -/
theorem sample_run_webhooks_fail :
    (Run { sampleEnv with AddWebhooksToManager := .error "boom" }
        (World.fresh sampleRegistry)).trace.map Prod.fst
      = (orderBeforeControllers true).dropLast ∧
    (Run { sampleEnv with AddWebhooksToManager := .error "boom" }
        (World.fresh sampleRegistry)).registered = none ∧
    (Run { sampleEnv with AddWebhooksToManager := .error "boom" }
        (World.fresh sampleRegistry)).exit
      = some ("boom", "Could not add webhooks to manager") := by
  decide

/-- C10: in every run of the `Run` closure from a fresh process, the statements executed form an
initial segment of the source order (complete the options, apply the client connection, the
optional CRD step, construct the manager, register the schemes, propagate the completed
configuration into the registries, register the webhooks, store the shoot webhooks, register the
controllers, start the manager); every statement but the last executed one succeeded, the
process exits exactly when the last executed statement failed, and without an exit the whole
sequence has run; and in a run that reaches controller registration, everything before it has run
in order, the shoot webhooks held by the control-plane registry at that moment are the list the
webhook registration returned, and they are still that list at `Start` and at the end; the
controllers are registered exactly in the runs whose trace has that statement, and the
registries they find hold, in each of the nine slots written by the `Apply` statements, the
completed option value that statement propagates (the ETCD storage, the health-check
configuration, the four controller configurations and the three ignore-operation-annotation
flags), hold the registered shoot webhooks, and are equal to the registries at the end of the
run, so that no slot is written after controller registration. -/
theorem bootstrap_runs_in_order (env : Env) (r : Registry) :
    (List.map Prod.fst (Run env (World.fresh r)).trace) <+: order env.completed.DeployCRDs ∧
    (∀ x ∈ (Run env (World.fresh r)).trace.dropLast, env.outcome x.1 = none) ∧
    (Run env (World.fresh r)).trace ≠ [] ∧
    (∀ s reg, (Run env (World.fresh r)).trace.getLast? = some (s, reg) →
      ((∃ err msg, env.outcome s = some err ∧ (Run env (World.fresh r)).exit = some (err, msg)) ∨
       (env.outcome s = none ∧ s = .Start ∧ (Run env (World.fresh r)).exit = none))) ∧
    ((Run env (World.fresh r)).exit = none →
      List.map Prod.fst (Run env (World.fresh r)).trace = order env.completed.DeployCRDs) ∧
    (∀ reg, (Step.AddControllersToManager, reg) ∈ (Run env (World.fresh r)).trace →
      env.AddWebhooksToManager = .ok reg ∧
      (Run env (World.fresh r)).registry.controlPlaneShootWebhooks = reg ∧
      (∀ x ∈ (Run env (World.fresh r)).trace, x.1 = .AddControllersToManager ∨ x.1 = .Start →
        x.2 = reg) ∧
      (List.map Prod.fst (Run env (World.fresh r)).trace
          = orderBeforeControllers env.completed.DeployCRDs ++ [.AddControllersToManager] ∨
       List.map Prod.fst (Run env (World.fresh r)).trace = order env.completed.DeployCRDs)) ∧
    ((Run env (World.fresh r)).registered ≠ none ↔
      Step.AddControllersToManager ∈ List.map Prod.fst (Run env (World.fresh r)).trace) ∧
    (∀ found, (Run env (World.fresh r)).registered = some found →
      found.exposureETCDStorage = env.completed.ETCDStorage ∧
      found.healthCheckConfig = env.completed.HealthCheckConfig ∧
      found.controlPlaneController = env.completed.controlPlaneCtrl ∧
      found.healthCheckController = env.completed.healthCheckCtrl ∧
      found.infraController = env.completed.infraCtrl ∧
      found.infraIgnoreOperationAnnotation = env.completed.IgnoreOperationAnnotation ∧
      found.controlPlaneIgnoreOperationAnnotation = env.completed.IgnoreOperationAnnotation ∧
      found.workerIgnoreOperationAnnotation = env.completed.IgnoreOperationAnnotation ∧
      found.workerController = env.completed.workerCtrl ∧
      env.AddWebhooksToManager = .ok found.controlPlaneShootWebhooks ∧
      (Run env (World.fresh r)).registry = found) :=
  Run_linear env r

end App

namespace ControlPlaneExposure

/-! ## The theorems at sample objects -/

/-- With ingress entries `10.0.0.1` then `10.0.0.2`, the lookup yields `10.0.0.2` and that is the
address written into the command. -/
theorem advertise_address_is_last_ingress_ip_witness :
    (sampleEnsurer sampleService).getServiceFirstLoadBalancerIP "shoot--foo--bar"
      = .ok "10.0.0.2" ∧
    ∃ cmd, (sampleEnsurer sampleService).EnsureKubeAPIServerDeployment
        (sampleDeployment [] [sampleSidecar, sampleAPIServer ["/kube-apiserver"]]) none
          = (none, sampleDeployment [] [sampleSidecar, sampleAPIServer cmd]) ∧
      cmd = EnsureStringWithPrefix ["/kube-apiserver"] "--advertise-address=" "10.0.0.2" ∧
      "--advertise-address=10.0.0.2" ∈ cmd :=
  (advertise_address_is_last_ingress_ip (sampleEnsurer sampleService) sampleService
    [⟨"10.0.0.1", ""⟩] ⟨"10.0.0.2", ""⟩
    (sampleDeployment [] [sampleSidecar, sampleAPIServer ["/kube-apiserver"]]) none
    [sampleSidecar] [] (sampleAPIServer ["/kube-apiserver"])
    rfl rfl rfl rfl (by decide) rfl).2 (by decide)

/-- A command without the flag gets `--advertise-address=10.0.0.2` as its new last element. -/
theorem advertise_address_appended_witness :
    (sampleEnsurer sampleService).EnsureKubeAPIServerDeployment
        (sampleDeployment [] [sampleSidecar,
          sampleAPIServer ["/kube-apiserver", "--secure-port=443"]]) none
      = (none, sampleDeployment [] [sampleSidecar,
          sampleAPIServer ["/kube-apiserver", "--secure-port=443",
            "--advertise-address=10.0.0.2"]]) :=
  advertise_address_appended (sampleEnsurer sampleService)
    (sampleDeployment [] [sampleSidecar, sampleAPIServer ["/kube-apiserver", "--secure-port=443"]])
    none [sampleSidecar] [] (sampleAPIServer ["/kube-apiserver", "--secure-port=443"]) "10.0.0.2"
    rfl rfl (by decide) rfl (by decide) rfl

/-- A command with the flag twice has the first occurrence replaced and the second kept. -/
theorem advertise_address_replaced_witness :
    ∃ before arg after cmd,
      ["/kube-apiserver", "--advertise-address=1.1.1.1", "--secure-port=443",
        "--advertise-address=2.2.2.2"] = before ++ arg :: after ∧
      (∀ a ∈ before, HasPrefix a "--advertise-address=" = false) ∧
      HasPrefix arg "--advertise-address=" = true ∧
      (sampleEnsurer sampleService).EnsureKubeAPIServerDeployment
          (sampleDeployment [] [sampleSidecar, sampleAPIServer ["/kube-apiserver",
            "--advertise-address=1.1.1.1", "--secure-port=443", "--advertise-address=2.2.2.2"]])
          none
        = (none, sampleDeployment [] [sampleSidecar, sampleAPIServer cmd]) ∧
      cmd = before ++ ("--advertise-address=" ++ "10.0.0.2") :: after ∧
      cmd.length = 4 ∧
      cmd[before.length]? = some ("--advertise-address=" ++ "10.0.0.2") ∧
      ∀ j, j ≠ before.length → cmd[j]? = ["/kube-apiserver", "--advertise-address=1.1.1.1",
        "--secure-port=443", "--advertise-address=2.2.2.2"][j]? :=
  advertise_address_replaced (sampleEnsurer sampleService)
    (sampleDeployment [] [sampleSidecar, sampleAPIServer ["/kube-apiserver",
      "--advertise-address=1.1.1.1", "--secure-port=443", "--advertise-address=2.2.2.2"]])
    none [sampleSidecar] []
    (sampleAPIServer ["/kube-apiserver", "--advertise-address=1.1.1.1", "--secure-port=443",
      "--advertise-address=2.2.2.2"]) "10.0.0.2"
    rfl rfl (by decide) rfl ⟨"--advertise-address=2.2.2.2", by decide, by decide⟩ rfl

/-- A last ingress entry with a hostname and no IP, after an entry with an IP, makes the call
fail and leaves the deployment as it was. -/
theorem lookup_failure_leaves_deployment_witness :
    ((sampleEnsurer sampleServiceNoIP).EnsureKubeAPIServerDeployment
        (sampleDeployment [] [sampleSidecar, sampleAPIServer ["/kube-apiserver"]]) none).1 ≠ none ∧
    ((sampleEnsurer sampleServiceNoIP).EnsureKubeAPIServerDeployment
        (sampleDeployment [] [sampleSidecar, sampleAPIServer ["/kube-apiserver"]]) none).2
      = sampleDeployment [] [sampleSidecar, sampleAPIServer ["/kube-apiserver"]] :=
  lookup_failure_leaves_deployment (sampleEnsurer sampleServiceNoIP) sampleServiceNoIP
    (sampleDeployment [] [sampleSidecar, sampleAPIServer ["/kube-apiserver"]]) none
    [sampleSidecar] [] (sampleAPIServer ["/kube-apiserver"])
    rfl (Or.inr ⟨[⟨"10.0.0.1", ""⟩], ⟨"", "lb.example.com"⟩, rfl, rfl⟩) rfl rfl (by decide) rfl

/-- A second call on the result of the first, for a command with the flag twice, changes
nothing. -/
theorem EnsureKubeAPIServerDeployment_idempotent_witness :
    ((sampleEnsurer sampleService).EnsureKubeAPIServerDeployment
        (sampleDeployment [] [sampleSidecar, sampleAPIServer ["/kube-apiserver",
          "--advertise-address=1.1.1.1", "--advertise-address=2.2.2.2"]]) none).1 = none ∧
    (sampleEnsurer sampleService).EnsureKubeAPIServerDeployment
        ((sampleEnsurer sampleService).EnsureKubeAPIServerDeployment
          (sampleDeployment [] [sampleSidecar, sampleAPIServer ["/kube-apiserver",
            "--advertise-address=1.1.1.1", "--advertise-address=2.2.2.2"]]) none).2
        (some (sampleDeployment [] [sampleSidecar, sampleAPIServer ["/kube-apiserver",
          "--advertise-address=1.1.1.1", "--advertise-address=2.2.2.2"]]))
      = (none, ((sampleEnsurer sampleService).EnsureKubeAPIServerDeployment
          (sampleDeployment [] [sampleSidecar, sampleAPIServer ["/kube-apiserver",
            "--advertise-address=1.1.1.1", "--advertise-address=2.2.2.2"]]) none).2) :=
  EnsureKubeAPIServerDeployment_idempotent (sampleEnsurer sampleService)
    (sampleEnsurer sampleService)
    (sampleDeployment [] [sampleSidecar, sampleAPIServer ["/kube-apiserver",
      "--advertise-address=1.1.1.1", "--advertise-address=2.2.2.2"]])
    none _ "10.0.0.2" rfl rfl

/-- A deployment with the marker, and one without a `kube-apiserver` container, come back
unchanged although the service has no usable address. -/
theorem skipped_deployment_unchanged_witness :
    (sampleEnsurer sampleServiceNoIP).EnsureKubeAPIServerDeployment
        (sampleDeployment [("core.gardener.cloud/apiserver-exposure", "gardener-managed")]
          [sampleSidecar, sampleAPIServer ["/kube-apiserver"]]) none
      = (none, sampleDeployment [("core.gardener.cloud/apiserver-exposure", "gardener-managed")]
          [sampleSidecar, sampleAPIServer ["/kube-apiserver"]]) ∧
    (sampleEnsurer sampleServiceNoIP).EnsureKubeAPIServerDeployment
        (sampleDeployment [] [sampleSidecar]) none
      = (none, sampleDeployment [] [sampleSidecar]) :=
  ⟨skipped_deployment_unchanged
      (sampleDeployment [("core.gardener.cloud/apiserver-exposure", "gardener-managed")]
        [sampleSidecar, sampleAPIServer ["/kube-apiserver"]])
      (Or.inl rfl) (sampleEnsurer sampleServiceNoIP) none,
   skipped_deployment_unchanged (sampleDeployment [] [sampleSidecar])
      (Or.inr (by decide)) (sampleEnsurer sampleServiceNoIP) none⟩

/-- The example of the specification: snapshot 5Gi/`fast` on `etcd-main`, and no snapshot. -/
theorem EnsureETCD_main_witness :
    (sampleEnsurer sampleService).EnsureETCD (sampleEtcd "etcd-main") none
      = (none, ⟨"etcd-main", "shoot--foo--bar", ⟨some "fast", some MustParse5Gi, 3⟩⟩) ∧
    (ensurer.mk none (sampleClient sampleService)).EnsureETCD (sampleEtcd "etcd-main") none
      = (none, ⟨"etcd-main", "shoot--foo--bar", ⟨some "", some MustParse10Gi, 3⟩⟩) :=
  ⟨(EnsureETCD_main (sampleEnsurer sampleService) (sampleEtcd "etcd-main") none rfl).1
      ⟨some "fast", some MustParse5Gi⟩ rfl,
   (EnsureETCD_main (ensurer.mk none (sampleClient sampleService)) (sampleEtcd "etcd-main")
      none rfl).2 rfl⟩

/-- On `etcd-events` the snapshot 5Gi/`fast` is ignored. -/
theorem EnsureETCD_not_main_witness :
    (sampleEnsurer sampleService).EnsureETCD (sampleEtcd "etcd-events") none
      = (none, ⟨"etcd-events", "shoot--foo--bar", ⟨some "", some MustParse10Gi, 3⟩⟩) :=
  (EnsureETCD_not_main (sampleEnsurer sampleService) (sampleEtcd "etcd-events") none
    (by decide)).1

end ControlPlaneExposure
